import Mathlib

/-!
Verification of the channel lifecycle of `gomavlib` (`channel.go`, `node.go`
event types), as a shallow embedding.

Frames, messages, parse errors, endpoints, labels and stream handles are
abstracted as `Nat`; only their identity matters to the properties below.

Two embeddings of `Channel.run` are given:
* sequential functional models of the reader-goroutine loop and the
  writer-goroutine loop (`readerLoop`, `writerLoop`), used for the local
  claims about a single loop iteration;
* a small-step concurrent transition system (`St`, `step`, `runSched`)
  covering the reader goroutine, the writer goroutine, the orchestrating
  body of `Channel.run` (the `select` and the two cleanup branches), and an
  external termination request arriving at an arbitrary time, used for the
  global trace claims.
-/

/-- The event variants of `node.go` restricted to one channel: the channel
back-reference is implicit (the model describes a single channel run). -/
inductive Ev
| channelOpen
| channelClose
| frame (f : Nat)
| parseError (e : Nat)
deriving DecidableEq, Repr

/-- One result of `ch.parser.Read()`: a decoded frame, a `*ParserError`
(recoverable), or any other error (fatal: end of stream, I/O failure). -/
inductive ReadResult
| ok (f : Nat)
| perr (e : Nat)
| fatal
deriving DecidableEq, Repr

/-- One item received from `ch.writec` (`chan interface\x7b\x7d`): a `Message`,
a `Frame`, or a value of any other type. -/
inductive OutItem
| msg (m : Nat)
| frm (f : Nat)
| other
deriving DecidableEq, Repr

/-- Observable actions of a channel run: events sent on `ch.n.eventsOut`,
the synchronous observer call `nodeStreamRequest.onEventFrame`, the codec
write calls of the writer goroutine, and the shutdown operations of the
orchestrator body of `Channel.run`. -/
inductive Act
| ev (e : Ev)
| obsCall (f : Nat)
| writeMsg (m : Nat)
| writeFrm (f : Nat)
| reportClose
| recvTerminate
| closeWritec
| joinWriter
| closeStream
| joinReader
deriving DecidableEq, Repr

/-- Sequential model of the reader-goroutine loop body of `Channel.run`
(`channel.go` lines 66-86), driven by the list of successive results of
`ch.parser.Read()`.  `obs` tells whether `ch.n.nodeStreamRequest` is set.
A `*ParserError` publishes `EventParseError` and continues; any other read
error returns from the goroutine; a decoded frame first goes to the
observer hook when configured, then is published as `EventFrame`. -/
def readerLoop (obs : Bool) : List ReadResult → List Act
  | [] => []
  | .perr e :: rest => Act.ev (Ev.parseError e) :: readerLoop obs rest
  | .fatal :: _ => []
  | .ok f :: rest =>
      if obs then Act.obsCall f :: Act.ev (Ev.frame f) :: readerLoop obs rest
      else Act.ev (Ev.frame f) :: readerLoop obs rest

/-- Outcome of one codec write call (`WriteMessage`/`WriteFrame`):
success or a transport error. -/
inductive WRes
| okW
| errW (e : Nat)
deriving DecidableEq, Repr

/-- What the writer goroutine of `Channel.run` does overall: the codec
write calls it performs, the events it sends on `ch.n.eventsOut`, and the
error it propagates out of the goroutine (if any). -/
structure WriterOut where
  calls : List Act
  published : List Ev
  propagated : Option Nat
deriving DecidableEq, Repr

/-- Sequential model of the writer-goroutine loop of `Channel.run`
(`channel.go` lines 92-102), driven by the items received from `ch.writec`.
`res` supplies the outcome of each successive codec write call; the source
discards these return values, sends no event, and returns nothing, so the
translation records the calls, consumes one outcome per call without
inspecting it, and continues with the next item.  An item that is neither a
`Message` nor a `Frame` falls through the `switch` and is dropped. -/
def writerLoop : List WRes → List OutItem → WriterOut
  | _, [] => { calls := [], published := [], propagated := none }
  | res, .msg m :: rest =>
      let o := writerLoop res.tail rest
      { o with calls := Act.writeMsg m :: o.calls }
  | res, .frm f :: rest =>
      let o := writerLoop res.tail rest
      { o with calls := Act.writeFrm f :: o.calls }
  | res, .other :: rest => writerLoop res rest

/-- `true` on the items that reach a codec write call in the writer loop. -/
def isWrite : OutItem → Bool
  | .other => false
  | _ => true

/-- The node-wide configuration fields that `newChannel` reads
(`channel.go` lines 25-35). -/
structure NodeConf where
  dialect : Nat
  inKey : Option Nat
  outSystemId : Nat
  outVersion : Nat
  outComponentId : Nat
  outKey : Option Nat
deriving DecidableEq, Repr

/-- The `ParserConf` that `newChannel` passes to `NewParser`: `Reader` and
`Writer` are both the raw stream, and `OutSignatureLinkId` is a fresh
random byte. -/
structure ParserConf where
  reader : Nat
  writer : Nat
  dialect : Nat
  inKey : Option Nat
  outSystemId : Nat
  outVersion : Nat
  outComponentId : Nat
  outSignatureLinkId : Nat
  outKey : Option Nat
deriving DecidableEq, Repr

/-- The fields of the `Channel` value built by `newChannel` that the claims
mention (the parser is an abstract handle). -/
structure ChannelV where
  endpoint : Nat
  label : Nat
  rwc : Nat
  parser : Nat
deriving DecidableEq, Repr

/-- Effects `newChannel` could perform on the raw stream or the runtime:
reads, writes, closes, goroutine starts. -/
inductive NewEffect
| streamRead
| streamWrite
| streamClose
| taskStart
deriving DecidableEq, Repr

/-- The `ParserConf` built inside `newChannel` (`channel.go` lines 25-35):
node configuration copied over, both endpoints of the parser bound to the
raw stream, and `OutSignatureLinkId` set to the fresh random byte `rb`. -/
def chanParserConf (conf : NodeConf) (rwc : Nat) (rb : Nat) : ParserConf :=
  { reader := rwc
    writer := rwc
    dialect := conf.dialect
    inKey := conf.inKey
    outSystemId := conf.outSystemId
    outVersion := conf.outVersion
    outComponentId := conf.outComponentId
    outSignatureLinkId := rb
    outKey := conf.outKey }

/-- `newChannel` (`channel.go` lines 24-50): build the parser from the
configuration; on failure return the error, otherwise return the channel
value holding the endpoint, the label, the stream and the parser.  `mk`
abstracts the external `NewParser`; `rb` abstracts the `randomByte()`
result.  The returned effect list records every stream/goroutine effect the
function performs: the source performs none. -/
def newChannel (mk : ParserConf → Except Nat Nat) (conf : NodeConf)
    (e : Nat) (label : Nat) (rwc : Nat) (rb : Nat) :
    List NewEffect × Except Nat ChannelV :=
  match mk (chanParserConf conf rwc rb) with
  | .error err => ([], .error err)
  | .ok p => ([], .ok { endpoint := e, label := label, rwc := rwc, parser := p })

/-- `Except.isOk` as a plain definition. -/
def exceptOk : Except Nat ChannelV → Bool
  | .ok _ => true
  | .error _ => false

/-- `Except.isOk` on the parser result. -/
def mkOk : Except Nat Nat → Bool
  | .ok _ => true
  | .error _ => false

/-- Program counter of the reader goroutine of `Channel.run`: about to send
`EventChannelOpen`; about to call `ch.parser.Read()`; about to call the
observer hook for frame `f`; about to send `EventFrame` for `f`; returned
(which closes `readerDone`). -/
inductive RPc
| pubOpen
| read
| obsStep (f : Nat)
| pubFrame (f : Nat)
| rdone
deriving DecidableEq, Repr

/-- Program counter of the writer goroutine: in the `for range ch.writec`
loop, or returned (which closes `writerDone`). -/
inductive WPc
| wloop
| wdone
deriving DecidableEq, Repr

/-- Program counter of the orchestrator body of `Channel.run`: at the
`select`, then the successive statements of the `<-readerDone` branch
(prefix `a`) or of the `<-ch.terminate` branch (prefix `b`), then done. -/
inductive OPc
| sel
| aPubClose
| aReport
| aWaitTerm
| aCloseW
| aJoinW
| aCloseS
| bPubClose
| bCloseW
| bJoinW
| bCloseS
| bJoinR
| odone
deriving DecidableEq, Repr

/-- Global state of one channel run: the three program counters, the
remaining reader script (successive `parser.Read` results) and writer
script (items sent on `ch.writec` before it is closed), whether
`ch.terminate` has been closed, whether `ch.writec` has been closed,
whether `ch.rwc.Close()` has run, which `select` branch was committed
(`some true` = `<-readerDone`, `some false` = `<-ch.terminate`), and the
trace of observable actions in the order they were performed. -/
structure St where
  obs : Bool
  rpc : RPc
  rscript : List ReadResult
  wpc : WPc
  wscript : List OutItem
  opc : OPc
  termReq : Bool
  writecClosed : Bool
  streamClosed : Bool
  path : Option Bool
  tr : List Act
deriving DecidableEq, Repr

/-- One step of the reader goroutine (`channel.go` lines 60-87).  Its first
action is sending `EventChannelOpen`.  At the read: once the raw stream has
been closed the read fails fatally and the goroutine returns; otherwise the
next script entry is consumed — a `*ParserError` publishes `EventParseError`
and continues, any other error returns, and a frame moves to the observer
call (when `ch.n.nodeStreamRequest` is set) and then to publishing
`EventFrame`.  An empty script on an open stream is a read still blocked. -/
def rStep (s : St) : Option St :=
  match s.rpc with
  | .pubOpen => some { s with rpc := .read, tr := s.tr ++ [Act.ev Ev.channelOpen] }
  | .read =>
      if s.streamClosed then
        some { s with rpc := .rdone }
      else
        match s.rscript with
        | [] => none
        | .perr e :: rest =>
            some { s with rscript := rest, tr := s.tr ++ [Act.ev (Ev.parseError e)] }
        | .fatal :: rest => some { s with rscript := rest, rpc := .rdone }
        | .ok f :: rest =>
            if s.obs then some { s with rscript := rest, rpc := .obsStep f }
            else some { s with rscript := rest, rpc := .pubFrame f }
  | .obsStep f => some { s with rpc := .pubFrame f, tr := s.tr ++ [Act.obsCall f] }
  | .pubFrame f => some { s with rpc := .read, tr := s.tr ++ [Act.ev (Ev.frame f)] }
  | .rdone => none

/-- One step of the writer goroutine (`channel.go` lines 90-102): receive
the next item from `ch.writec` (a codec write for a `Message` or a `Frame`,
nothing for any other type), or leave the loop once the queue is closed and
drained. -/
def wStep (s : St) : Option St :=
  match s.wpc with
  | .wdone => none
  | .wloop =>
      match s.wscript with
      | .msg m :: rest => some { s with wscript := rest, tr := s.tr ++ [Act.writeMsg m] }
      | .frm f :: rest => some { s with wscript := rest, tr := s.tr ++ [Act.writeFrm f] }
      | .other :: rest => some { s with wscript := rest }
      | [] => if s.writecClosed then some { s with wpc := .wdone } else none

/-- One statement of the orchestrator after the `select` has committed
(`channel.go` lines 104-124).  Branch `a` (`<-readerDone`): publish
`EventChannelClose`; send the channel on `ch.n.channelClose`; block on
`<-ch.terminate`; `close(ch.writec)`; `<-writerDone`; `ch.rwc.Close()`.
Branch `b` (`<-ch.terminate`): publish `EventChannelClose`;
`close(ch.writec)`; `<-writerDone`; `ch.rwc.Close()`; `<-readerDone`. -/
def oStep (s : St) : Option St :=
  match s.opc with
  | .sel => none
  | .aPubClose => some { s with opc := .aReport, tr := s.tr ++ [Act.ev Ev.channelClose] }
  | .aReport => some { s with opc := .aWaitTerm, tr := s.tr ++ [Act.reportClose] }
  | .aWaitTerm =>
      if s.termReq then some { s with opc := .aCloseW, tr := s.tr ++ [Act.recvTerminate] }
      else none
  | .aCloseW =>
      some { s with opc := .aJoinW, writecClosed := true, tr := s.tr ++ [Act.closeWritec] }
  | .aJoinW =>
      if s.wpc = WPc.wdone then some { s with opc := .aCloseS, tr := s.tr ++ [Act.joinWriter] }
      else none
  | .aCloseS =>
      some { s with opc := .odone, streamClosed := true, tr := s.tr ++ [Act.closeStream] }
  | .bPubClose => some { s with opc := .bCloseW, tr := s.tr ++ [Act.ev Ev.channelClose] }
  | .bCloseW =>
      some { s with opc := .bJoinW, writecClosed := true, tr := s.tr ++ [Act.closeWritec] }
  | .bJoinW =>
      if s.wpc = WPc.wdone then some { s with opc := .bCloseS, tr := s.tr ++ [Act.joinWriter] }
      else none
  | .bCloseS =>
      some { s with opc := .bJoinR, streamClosed := true, tr := s.tr ++ [Act.closeStream] }
  | .bJoinR =>
      if s.rpc = RPc.rdone then some { s with opc := .odone, tr := s.tr ++ [Act.joinReader] }
      else none
  | .odone => none

/-- The `select` of `Channel.run` commits to one of its two cases:
`<-readerDone` is ready once the reader goroutine has returned,
`<-ch.terminate` is ready once the termination request has arrived.  When
both are ready either branch may be chosen. -/
def selStep (b : Bool) (s : St) : Option St :=
  match s.opc with
  | .sel =>
      if b then
        if s.rpc = RPc.rdone then some { s with opc := .aPubClose, path := some true }
        else none
      else
        if s.termReq then some { s with opc := .bPubClose, path := some false }
        else none
  | _ => none

/-- The environment closes `ch.terminate` at an arbitrary moment (external
termination request); it happens at most once and is never undone. -/
def reqStep (s : St) : Option St :=
  if s.termReq then none else some { s with termReq := true }

/-- Scheduler labels: which concurrent activity takes the next step.
`selA`/`selB` resolve the race of the `select` explicitly. -/
inductive L
| rstep
| wstep
| ostep
| selA
| selB
| reqTerm
deriving DecidableEq, Repr

/-- Dispatch one scheduled step; `none` when that activity is blocked. -/
def step : L → St → Option St
  | .rstep => rStep
  | .wstep => wStep
  | .ostep => oStep
  | .selA => selStep true
  | .selB => selStep false
  | .reqTerm => reqStep

/-- Run a schedule: every label must be enabled at its turn. -/
def runSched : List L → St → Option St
  | [], s => some s
  | l :: rest, s =>
      match step l s with
      | none => none
      | some s2 => runSched rest s2

/-- Initial state of `Channel.run`: reader about to publish
`EventChannelOpen`, writer in its receive loop, orchestrator at the
`select`, no termination request yet, nothing closed, empty trace. -/
def initSt (obs : Bool) (rs : List ReadResult) (ws : List OutItem) : St :=
  { obs := obs
    rpc := .pubOpen
    rscript := rs
    wpc := .wloop
    wscript := ws
    opc := .sel
    termReq := false
    writecClosed := false
    streamClosed := false
    path := none
    tr := [] }

/-- The events of a trace: what the single consumer of `ch.n.eventsOut`
observes, in order. -/
def evOf : Act → Option Ev
  | .ev e => some e
  | _ => none

/-- Restrict a trace to the published events. -/
def events (tr : List Act) : List Ev := tr.filterMap evOf

/-- `true` on `Frame` and `ParseError` events (the middle of the pattern). -/
def isMid : Ev → Bool
  | .frame _ => true
  | .parseError _ => true
  | _ => false

/-- `mids* Close`: zero or more `Frame`/`ParseError` events followed by a
single final `ChannelClose`. -/
def patClose : List Ev → Bool
  | [] => false
  | e :: rest =>
      if rest = [] then e == Ev.channelClose else isMid e && patClose rest

/-- The claimed per-channel pattern `Open (Frame | ParseError)* Close`. -/
def goodPattern : List Ev → Bool
  | Ev.channelOpen :: rest => patClose rest
  | _ => false

/-- `Open mids*`: the shape of the event trace while only the reader has
published. -/
def openMids : List Ev → Bool
  | Ev.channelOpen :: rest => rest.all isMid
  | _ => false

/-- No `Frame`/`ParseError` occurs before the first `ChannelOpen`. -/
def beforeOpenOk : List Ev → Bool
  | [] => true
  | Ev.channelOpen :: _ => true
  | e :: rest => !isMid e && beforeOpenOk rest

/-- The actions performed by the orchestrator body of `Channel.run` (as
opposed to the reader or writer goroutine). -/
def isOrchAct : Act → Bool
  | .ev Ev.channelClose => true
  | .reportClose => true
  | .recvTerminate => true
  | .closeWritec => true
  | .joinWriter => true
  | .closeStream => true
  | .joinReader => true
  | _ => false

/-- The action sequence of the `<-readerDone` branch of the `select`. -/
def aSeq : List Act :=
  [Act.ev Ev.channelClose, Act.reportClose, Act.recvTerminate,
   Act.closeWritec, Act.joinWriter, Act.closeStream]

/-- The action sequence of the `<-ch.terminate` branch of the `select`. -/
def bSeq : List Act :=
  [Act.ev Ev.channelClose, Act.closeWritec, Act.joinWriter,
   Act.closeStream, Act.joinReader]

/-- The orchestrator actions already performed, as a function of its
program counter and the committed branch. -/
def oTrace (p : Option Bool) : OPc → List Act
  | .sel => []
  | .aPubClose => []
  | .aReport => aSeq.take 1
  | .aWaitTerm => aSeq.take 2
  | .aCloseW => aSeq.take 3
  | .aJoinW => aSeq.take 4
  | .aCloseS => aSeq.take 5
  | .bPubClose => []
  | .bCloseW => bSeq.take 1
  | .bJoinW => bSeq.take 2
  | .bCloseS => bSeq.take 3
  | .bJoinR => bSeq.take 4
  | .odone => match p with
      | some true => aSeq
      | _ => bSeq

/-- `ChannelClose` has been published iff the orchestrator is past the
first statement of its committed branch. -/
def oClosePub : OPc → Bool
  | .sel => false
  | .aPubClose => false
  | .bPubClose => false
  | _ => true

/-- Which committed branch each orchestrator program counter belongs to. -/
def pathOk : OPc → Option Bool → Prop
  | .sel, p => p = none
  | .odone, p => p ≠ none
  | .aPubClose, p => p = some true
  | .aReport, p => p = some true
  | .aWaitTerm, p => p = some true
  | .aCloseW, p => p = some true
  | .aJoinW, p => p = some true
  | .aCloseS, p => p = some true
  | _, p => p = some false

/-- The inductive invariant of the transition system.  It only depends on
the reader and orchestrator program counters, the committed branch and the
trace; it ties them together: how many `ChannelOpen`/`ChannelClose` events
have been published, the exact list of orchestrator actions performed so
far, and the shape of the event trace needed for the pattern claims. -/
structure SysInv (rpc : RPc) (opc : OPc) (path : Option Bool) (tr : List Act) : Prop where
  openCount : (events tr).count Ev.channelOpen = (if rpc = RPc.pubOpen then 0 else 1)
  openMem : rpc ≠ RPc.pubOpen → Ev.channelOpen ∈ events tr
  closeCount : (events tr).count Ev.channelClose = (if oClosePub opc then 1 else 0)
  orchTr : tr.filter isOrchAct = oTrace path opc
  pathPc : pathOk opc path
  doneReader : opc = OPc.odone → rpc = RPc.rdone
  beforeOpen : beforeOpenOk (events tr) = true
  shapeNone : path = none →
      (if rpc = RPc.pubOpen then events tr = [] else openMids (events tr) = true)
  shapeA : path = some true → rpc = RPc.rdone ∧
      (if oClosePub opc then goodPattern (events tr) = true
       else openMids (events tr) = true)

theorem events_append (tr : List Act) (a : Act) :
    events (tr ++ [a]) = events tr ++ (evOf a).toList := by
  cases h : evOf a <;> simp [events, h]

theorem count_snoc (l : List Ev) (a b : Ev) :
    (l ++ [b]).count a = l.count a + (if b = a then 1 else 0) := by
  simp [List.count_append, List.count_cons]

theorem mem_snoc_of_mem {l : List Ev} {a : Ev} (b : Ev) (h : a ∈ l) : a ∈ l ++ [b] := by
  exact List.mem_append_left _ h

theorem filter_snoc (tr : List Act) (a : Act) :
    (tr ++ [a]).filter isOrchAct =
      tr.filter isOrchAct ++ (if isOrchAct a then [a] else []) := by
  simp [List.filter_append, List.filter_cons]

theorem beforeOpenOk_snoc {es : List Ev} {e : Ev} (h : beforeOpenOk es = true)
    (h2 : isMid e = false ∨ Ev.channelOpen ∈ es) : beforeOpenOk (es ++ [e]) = true := by
  induction es with
  | nil =>
      rcases h2 with h2 | h2
      · cases e <;> simp_all [beforeOpenOk, isMid]
      · simp at h2
  | cons a es ih =>
      cases a with
      | channelOpen => simp [beforeOpenOk]
      | channelClose =>
          simp only [beforeOpenOk, List.cons_append, Bool.and_eq_true] at h ⊢
          refine ⟨by simp [isMid], ih h.2 ?_⟩
          rcases h2 with h2 | h2
          · exact Or.inl h2
          · rcases List.mem_cons.mp h2 with h3 | h3
            · simp at h3
            · exact Or.inr h3
      | frame f => simp [beforeOpenOk, isMid] at h
      | parseError e2 => simp [beforeOpenOk, isMid] at h

theorem openMids_snoc_mid {es : List Ev} {e : Ev} (h : openMids es = true)
    (hm : isMid e = true) : openMids (es ++ [e]) = true := by
  cases es with
  | nil => simp [openMids] at h
  | cons a es =>
      cases a <;> simp_all [openMids, List.all_append]

theorem patClose_of_mids {es : List Ev} (h : es.all isMid = true) :
    patClose (es ++ [Ev.channelClose]) = true := by
  induction es with
  | nil => simp [patClose]
  | cons a es ih =>
      simp only [List.all_cons, Bool.and_eq_true] at h
      simp [patClose, h.1, ih h.2]

theorem goodPattern_snoc_close {es : List Ev} (h : openMids es = true) :
    goodPattern (es ++ [Ev.channelClose]) = true := by
  cases es with
  | nil => simp [openMids] at h
  | cons a es =>
      cases a <;> simp_all [openMids, goodPattern, patClose_of_mids]

theorem events_snoc_ev (tr : List Act) (e : Ev) :
    events (tr ++ [Act.ev e]) = events tr ++ [e] := by
  rw [events_append]; simp [evOf]

theorem events_snoc_silent (tr : List Act) (a : Act) (h : evOf a = none) :
    events (tr ++ [a]) = events tr := by
  rw [events_append, h]; simp

theorem filter_snoc_orch (tr : List Act) (a : Act) (h : isOrchAct a = true) :
    (tr ++ [a]).filter isOrchAct = tr.filter isOrchAct ++ [a] := by
  rw [filter_snoc, h]; simp

theorem filter_snoc_silent (tr : List Act) (a : Act) (h : isOrchAct a = false) :
    (tr ++ [a]).filter isOrchAct = tr.filter isOrchAct := by
  rw [filter_snoc, h]; simp

/-- Appending an action that is neither an event nor an orchestrator action
preserves the invariant. -/
theorem sysInv_append_silent {rpc : RPc} {opc : OPc} {path : Option Bool} {tr : List Act}
    {a : Act} (h : SysInv rpc opc path tr) (he : evOf a = none) (ho : isOrchAct a = false) :
    SysInv rpc opc path (tr ++ [a]) := by
  obtain ⟨h1, h2, h3, h4, h5, h6, h7, h8, h9⟩ := h
  have hev := events_snoc_silent tr a he
  have hfl := filter_snoc_silent tr a ho
  refine ⟨?_, ?_, ?_, ?_, h5, h6, ?_, ?_, ?_⟩
  · rw [hev]; exact h1
  · intro hne; rw [hev]; exact h2 hne
  · rw [hev]; exact h3
  · rw [hfl]; exact h4
  · rw [hev]; exact h7
  · intro hp; rw [hev]; exact h8 hp
  · intro hp; rw [hev]; exact h9 hp

theorem wStep_inv {s s' : St} (hs : wStep s = some s')
    (h : SysInv s.rpc s.opc s.path s.tr) : SysInv s'.rpc s'.opc s'.path s'.tr := by
  obtain ⟨obs, rpc, rscript, wpc, wscript, opc, termReq, wcl, scl, path, tr⟩ := s
  cases wpc with
  | wdone => simp [wStep] at hs
  | wloop =>
      cases wscript with
      | nil =>
          simp only [wStep] at hs
          split at hs
          · rw [Option.some.injEq] at hs
            subst hs
            exact h
          · exact absurd hs (by simp)
      | cons i rest =>
          cases i <;> simp only [wStep, Option.some.injEq] at hs <;> subst hs
          · exact sysInv_append_silent h rfl rfl
          · exact sysInv_append_silent h rfl rfl
          · exact h

theorem reqStep_inv {s s' : St} (hs : reqStep s = some s')
    (h : SysInv s.rpc s.opc s.path s.tr) : SysInv s'.rpc s'.opc s'.path s'.tr := by
  unfold reqStep at hs
  split at hs
  · exact absurd hs (by simp)
  · rw [Option.some.injEq] at hs
    subst hs
    exact h

theorem rStep_inv {obs rpc rscript wpc wscript opc termReq wcl scl path tr}
    {s' : St}
    (hs : rStep ⟨obs, rpc, rscript, wpc, wscript, opc, termReq, wcl, scl, path, tr⟩ = some s')
    (h : SysInv rpc opc path tr) : SysInv s'.rpc s'.opc s'.path s'.tr := by
  obtain ⟨h1, h2, h3, h4, h5, h6, h7, h8, h9⟩ := h
  cases rpc with
  | pubOpen =>
      simp [rStep] at hs
      subst hs
      refine ⟨?_, ?_, ?_, ?_, h5, ?_, ?_, ?_, ?_⟩
      · simp only [events_snoc_ev, count_snoc]
        simp at h1
        simp [h1]
      · intro _
        simp [events_snoc_ev]
      · simp only [events_snoc_ev, count_snoc]
        simpa using h3
      · simp only [filter_snoc]
        simpa [isOrchAct] using h4
      · intro ho
        exact absurd (h6 ho) (by simp)
      · simp only [events_snoc_ev]
        exact beforeOpenOk_snoc h7 (Or.inl rfl)
      · intro hp
        have h8' := h8 hp
        simp at h8'
        simp [events_snoc_ev, h8', openMids]
      · intro hp
        exact absurd (h9 hp).1 (by simp)
  | read =>
      cases scl with
      | true =>
          simp [rStep] at hs
          subst hs
          refine ⟨?_, ?_, h3, h4, h5, ?_, h7, ?_, ?_⟩
          · simpa using h1
          · intro _
            exact h2 (by simp)
          · intro _
            rfl
          · intro hp
            simpa using h8 hp
          · intro hp
            exact absurd (h9 hp).1 (by simp)
      | false =>
          cases rscript with
          | nil => simp [rStep] at hs
          | cons rr rest =>
              cases rr with
              | perr e =>
                  simp [rStep] at hs
                  subst hs
                  refine ⟨?_, ?_, ?_, ?_, h5, h6, ?_, ?_, ?_⟩
                  · simp only [events_snoc_ev, count_snoc]
                    simpa using h1
                  · intro _
                    simp only [events_snoc_ev]
                    exact List.mem_append_left _ (h2 (by simp))
                  · simp only [events_snoc_ev, count_snoc]
                    simpa using h3
                  · simp only [filter_snoc]
                    simpa [isOrchAct] using h4
                  · simp only [events_snoc_ev]
                    exact beforeOpenOk_snoc h7 (Or.inr (h2 (by simp)))
                  · intro hp
                    simp only [events_snoc_ev]
                    have h8' := h8 hp
                    simp at h8' ⊢
                    exact openMids_snoc_mid h8' rfl
                  · intro hp
                    exact absurd (h9 hp).1 (by simp)
              | fatal =>
                  simp [rStep] at hs
                  subst hs
                  refine ⟨?_, ?_, h3, h4, h5, ?_, h7, ?_, ?_⟩
                  · simpa using h1
                  · intro _
                    exact h2 (by simp)
                  · intro _
                    rfl
                  · intro hp
                    simpa using h8 hp
                  · intro hp
                    exact absurd (h9 hp).1 (by simp)
              | ok f =>
                  cases obs with
                  | true =>
                      simp [rStep] at hs
                      subst hs
                      refine ⟨?_, ?_, h3, h4, h5, ?_, h7, ?_, ?_⟩
                      · simpa using h1
                      · intro _
                        exact h2 (by simp)
                      · intro ho
                        exact absurd (h6 ho) (by simp)
                      · intro hp
                        simpa using h8 hp
                      · intro hp
                        exact absurd (h9 hp).1 (by simp)
                  | false =>
                      simp [rStep] at hs
                      subst hs
                      refine ⟨?_, ?_, h3, h4, h5, ?_, h7, ?_, ?_⟩
                      · simpa using h1
                      · intro _
                        exact h2 (by simp)
                      · intro ho
                        exact absurd (h6 ho) (by simp)
                      · intro hp
                        simpa using h8 hp
                      · intro hp
                        exact absurd (h9 hp).1 (by simp)
  | obsStep f =>
      simp [rStep] at hs
      subst hs
      refine ⟨?_, ?_, ?_, ?_, h5, ?_, ?_, ?_, ?_⟩
      · simp only [events_snoc_silent tr (Act.obsCall f) rfl]
        simpa using h1
      · intro _
        simp only [events_snoc_silent tr (Act.obsCall f) rfl]
        exact h2 (by simp)
      · simp only [events_snoc_silent tr (Act.obsCall f) rfl]
        exact h3
      · simp only [filter_snoc]
        simpa [isOrchAct] using h4
      · intro ho
        exact absurd (h6 ho) (by simp)
      · simp only [events_snoc_silent tr (Act.obsCall f) rfl]
        exact h7
      · intro hp
        simp only [events_snoc_silent tr (Act.obsCall f) rfl]
        simpa using h8 hp
      · intro hp
        exact absurd (h9 hp).1 (by simp)
  | pubFrame f =>
      simp [rStep] at hs
      subst hs
      refine ⟨?_, ?_, ?_, ?_, h5, ?_, ?_, ?_, ?_⟩
      · simp only [events_snoc_ev, count_snoc]
        simpa using h1
      · intro _
        simp only [events_snoc_ev]
        exact List.mem_append_left _ (h2 (by simp))
      · simp only [events_snoc_ev, count_snoc]
        simpa using h3
      · simp only [filter_snoc]
        simpa [isOrchAct] using h4
      · intro ho
        exact absurd (h6 ho) (by simp)
      · simp only [events_snoc_ev]
        exact beforeOpenOk_snoc h7 (Or.inr (h2 (by simp)))
      · intro hp
        simp only [events_snoc_ev]
        have h8' := h8 hp
        simp at h8' ⊢
        exact openMids_snoc_mid h8' rfl
      · intro hp
        exact absurd (h9 hp).1 (by simp)
  | rdone => simp [rStep] at hs

theorem selStep_inv {b : Bool} {obs rpc rscript wpc wscript opc termReq wcl scl path tr}
    {s' : St}
    (hs : selStep b ⟨obs, rpc, rscript, wpc, wscript, opc, termReq, wcl, scl, path, tr⟩ = some s')
    (h : SysInv rpc opc path tr) : SysInv s'.rpc s'.opc s'.path s'.tr := by
  obtain ⟨h1, h2, h3, h4, h5, h6, h7, h8, h9⟩ := h
  cases opc with
  | sel =>
      have hpn : path = none := h5
      subst hpn
      cases b with
      | true =>
          by_cases hr : rpc = RPc.rdone
          · subst hr
            simp [selStep] at hs
            subst hs
            refine ⟨h1, h2, h3, h4, rfl, ?_, h7, ?_, ?_⟩
            · intro ho
              exact absurd ho (by simp)
            · intro hp
              exact absurd hp (by simp)
            · intro _
              refine ⟨rfl, ?_⟩
              simpa using h8 rfl
          · simp [selStep, hr] at hs
      | false =>
          by_cases ht : termReq = true
          · subst ht
            simp [selStep] at hs
            subst hs
            refine ⟨h1, h2, h3, h4, rfl, ?_, h7, ?_, ?_⟩
            · intro ho
              exact absurd ho (by simp)
            · intro hp
              exact absurd hp (by simp)
            · intro hp
              exact absurd hp (by simp)
          · simp [selStep, ht] at hs
  | aPubClose => simp [selStep] at hs
  | aReport => simp [selStep] at hs
  | aWaitTerm => simp [selStep] at hs
  | aCloseW => simp [selStep] at hs
  | aJoinW => simp [selStep] at hs
  | aCloseS => simp [selStep] at hs
  | bPubClose => simp [selStep] at hs
  | bCloseW => simp [selStep] at hs
  | bJoinW => simp [selStep] at hs
  | bCloseS => simp [selStep] at hs
  | bJoinR => simp [selStep] at hs
  | odone => simp [selStep] at hs

theorem oStep_inv {obs rpc rscript wpc wscript opc termReq wcl scl path tr}
    {s' : St}
    (hs : oStep ⟨obs, rpc, rscript, wpc, wscript, opc, termReq, wcl, scl, path, tr⟩ = some s')
    (h : SysInv rpc opc path tr) : SysInv s'.rpc s'.opc s'.path s'.tr := by
  obtain ⟨h1, h2, h3, h4, h5, h6, h7, h8, h9⟩ := h
  cases opc with
  | sel => simp [oStep] at hs
  | odone => simp [oStep] at hs
  | aPubClose =>
      have hp5 : path = some true := h5
      subst hp5
      obtain ⟨hrd, hsh⟩ := h9 rfl
      have hm : openMids (events tr) = true := by simpa [oClosePub] using hsh
      have h3' : (events tr).count Ev.channelClose = 0 := by simpa [oClosePub] using h3
      simp [oStep] at hs
      subst hs
      refine ⟨?_, ?_, ?_, ?_, rfl, ?_, ?_, ?_, ?_⟩
      · simp only [events_snoc_ev, count_snoc]
        simpa using h1
      · intro hne
        simp only [events_snoc_ev]
        exact List.mem_append_left _ (h2 hne)
      · simp only [events_snoc_ev, count_snoc]
        simp [h3', oClosePub]
      · simp only [filter_snoc]
        rw [h4]
        rfl
      · intro ho
        exact absurd ho (by simp)
      · simp only [events_snoc_ev]
        exact beforeOpenOk_snoc h7 (Or.inl rfl)
      · intro hp
        exact absurd hp (by simp)
      · intro _
        refine ⟨hrd, ?_⟩
        simp only [events_snoc_ev]
        simp [oClosePub, goodPattern_snoc_close hm]
  | aReport =>
      have hp5 : path = some true := h5
      subst hp5
      obtain ⟨hrd, hsh⟩ := h9 rfl
      simp [oStep] at hs
      subst hs
      refine ⟨?_, ?_, ?_, ?_, rfl, ?_, ?_, ?_, ?_⟩
      · simp only [events_snoc_silent tr Act.reportClose rfl]
        exact h1
      · intro hne
        simp only [events_snoc_silent tr Act.reportClose rfl]
        exact h2 hne
      · simp only [events_snoc_silent tr Act.reportClose rfl]
        simpa [oClosePub] using h3
      · simp only [filter_snoc]
        rw [h4]
        rfl
      · intro ho
        exact absurd ho (by simp)
      · simp only [events_snoc_silent tr Act.reportClose rfl]
        exact h7
      · intro hp
        exact absurd hp (by simp)
      · intro _
        refine ⟨hrd, ?_⟩
        simp only [events_snoc_silent tr Act.reportClose rfl]
        simpa [oClosePub] using hsh
  | aWaitTerm =>
      have hp5 : path = some true := h5
      subst hp5
      obtain ⟨hrd, hsh⟩ := h9 rfl
      by_cases ht : termReq = true
      · subst ht
        simp [oStep] at hs
        subst hs
        refine ⟨?_, ?_, ?_, ?_, rfl, ?_, ?_, ?_, ?_⟩
        · simp only [events_snoc_silent tr Act.recvTerminate rfl]
          exact h1
        · intro hne
          simp only [events_snoc_silent tr Act.recvTerminate rfl]
          exact h2 hne
        · simp only [events_snoc_silent tr Act.recvTerminate rfl]
          simpa [oClosePub] using h3
        · simp only [filter_snoc]
          rw [h4]
          rfl
        · intro ho
          exact absurd ho (by simp)
        · simp only [events_snoc_silent tr Act.recvTerminate rfl]
          exact h7
        · intro hp
          exact absurd hp (by simp)
        · intro _
          refine ⟨hrd, ?_⟩
          simp only [events_snoc_silent tr Act.recvTerminate rfl]
          simpa [oClosePub] using hsh
      · simp [oStep, ht] at hs
  | aCloseW =>
      have hp5 : path = some true := h5
      subst hp5
      obtain ⟨hrd, hsh⟩ := h9 rfl
      simp [oStep] at hs
      subst hs
      refine ⟨?_, ?_, ?_, ?_, rfl, ?_, ?_, ?_, ?_⟩
      · simp only [events_snoc_silent tr Act.closeWritec rfl]
        exact h1
      · intro hne
        simp only [events_snoc_silent tr Act.closeWritec rfl]
        exact h2 hne
      · simp only [events_snoc_silent tr Act.closeWritec rfl]
        simpa [oClosePub] using h3
      · simp only [filter_snoc]
        rw [h4]
        rfl
      · intro ho
        exact absurd ho (by simp)
      · simp only [events_snoc_silent tr Act.closeWritec rfl]
        exact h7
      · intro hp
        exact absurd hp (by simp)
      · intro _
        refine ⟨hrd, ?_⟩
        simp only [events_snoc_silent tr Act.closeWritec rfl]
        simpa [oClosePub] using hsh
  | aJoinW =>
      have hp5 : path = some true := h5
      subst hp5
      obtain ⟨hrd, hsh⟩ := h9 rfl
      by_cases hw : wpc = WPc.wdone
      · subst hw
        simp [oStep] at hs
        subst hs
        refine ⟨?_, ?_, ?_, ?_, rfl, ?_, ?_, ?_, ?_⟩
        · simp only [events_snoc_silent tr Act.joinWriter rfl]
          exact h1
        · intro hne
          simp only [events_snoc_silent tr Act.joinWriter rfl]
          exact h2 hne
        · simp only [events_snoc_silent tr Act.joinWriter rfl]
          simpa [oClosePub] using h3
        · simp only [filter_snoc]
          rw [h4]
          rfl
        · intro ho
          exact absurd ho (by simp)
        · simp only [events_snoc_silent tr Act.joinWriter rfl]
          exact h7
        · intro hp
          exact absurd hp (by simp)
        · intro _
          refine ⟨hrd, ?_⟩
          simp only [events_snoc_silent tr Act.joinWriter rfl]
          simpa [oClosePub] using hsh
      · simp [oStep, hw] at hs
  | aCloseS =>
      have hp5 : path = some true := h5
      subst hp5
      obtain ⟨hrd, hsh⟩ := h9 rfl
      simp [oStep] at hs
      subst hs
      refine ⟨?_, ?_, ?_, ?_, ?_, ?_, ?_, ?_, ?_⟩
      · simp only [events_snoc_silent tr Act.closeStream rfl]
        exact h1
      · intro hne
        simp only [events_snoc_silent tr Act.closeStream rfl]
        exact h2 hne
      · simp only [events_snoc_silent tr Act.closeStream rfl]
        simpa [oClosePub] using h3
      · simp only [filter_snoc]
        rw [h4]
        rfl
      · simp [pathOk]
      · intro _
        exact hrd
      · simp only [events_snoc_silent tr Act.closeStream rfl]
        exact h7
      · intro hp
        exact absurd hp (by simp)
      · intro _
        refine ⟨hrd, ?_⟩
        simp only [events_snoc_silent tr Act.closeStream rfl]
        simpa [oClosePub] using hsh
  | bPubClose =>
      have hp5 : path = some false := h5
      subst hp5
      have h3' : (events tr).count Ev.channelClose = 0 := by simpa [oClosePub] using h3
      simp [oStep] at hs
      subst hs
      refine ⟨?_, ?_, ?_, ?_, rfl, ?_, ?_, ?_, ?_⟩
      · simp only [events_snoc_ev, count_snoc]
        simpa using h1
      · intro hne
        simp only [events_snoc_ev]
        exact List.mem_append_left _ (h2 hne)
      · simp only [events_snoc_ev, count_snoc]
        simp [h3', oClosePub]
      · simp only [filter_snoc]
        rw [h4]
        rfl
      · intro ho
        exact absurd ho (by simp)
      · simp only [events_snoc_ev]
        exact beforeOpenOk_snoc h7 (Or.inl rfl)
      · intro hp
        exact absurd hp (by simp)
      · intro hp
        exact absurd hp (by simp)
  | bCloseW =>
      have hp5 : path = some false := h5
      subst hp5
      simp [oStep] at hs
      subst hs
      refine ⟨?_, ?_, ?_, ?_, rfl, ?_, ?_, ?_, ?_⟩
      · simp only [events_snoc_silent tr Act.closeWritec rfl]
        exact h1
      · intro hne
        simp only [events_snoc_silent tr Act.closeWritec rfl]
        exact h2 hne
      · simp only [events_snoc_silent tr Act.closeWritec rfl]
        simpa [oClosePub] using h3
      · simp only [filter_snoc]
        rw [h4]
        rfl
      · intro ho
        exact absurd ho (by simp)
      · simp only [events_snoc_silent tr Act.closeWritec rfl]
        exact h7
      · intro hp
        exact absurd hp (by simp)
      · intro hp
        exact absurd hp (by simp)
  | bJoinW =>
      have hp5 : path = some false := h5
      subst hp5
      by_cases hw : wpc = WPc.wdone
      · subst hw
        simp [oStep] at hs
        subst hs
        refine ⟨?_, ?_, ?_, ?_, rfl, ?_, ?_, ?_, ?_⟩
        · simp only [events_snoc_silent tr Act.joinWriter rfl]
          exact h1
        · intro hne
          simp only [events_snoc_silent tr Act.joinWriter rfl]
          exact h2 hne
        · simp only [events_snoc_silent tr Act.joinWriter rfl]
          simpa [oClosePub] using h3
        · simp only [filter_snoc]
          rw [h4]
          rfl
        · intro ho
          exact absurd ho (by simp)
        · simp only [events_snoc_silent tr Act.joinWriter rfl]
          exact h7
        · intro hp
          exact absurd hp (by simp)
        · intro hp
          exact absurd hp (by simp)
      · simp [oStep, hw] at hs
  | bCloseS =>
      have hp5 : path = some false := h5
      subst hp5
      simp [oStep] at hs
      subst hs
      refine ⟨?_, ?_, ?_, ?_, rfl, ?_, ?_, ?_, ?_⟩
      · simp only [events_snoc_silent tr Act.closeStream rfl]
        exact h1
      · intro hne
        simp only [events_snoc_silent tr Act.closeStream rfl]
        exact h2 hne
      · simp only [events_snoc_silent tr Act.closeStream rfl]
        simpa [oClosePub] using h3
      · simp only [filter_snoc]
        rw [h4]
        rfl
      · intro ho
        exact absurd ho (by simp)
      · simp only [events_snoc_silent tr Act.closeStream rfl]
        exact h7
      · intro hp
        exact absurd hp (by simp)
      · intro hp
        exact absurd hp (by simp)
  | bJoinR =>
      have hp5 : path = some false := h5
      subst hp5
      by_cases hr : rpc = RPc.rdone
      · subst hr
        simp [oStep] at hs
        subst hs
        refine ⟨?_, ?_, ?_, ?_, ?_, ?_, ?_, ?_, ?_⟩
        · simp only [events_snoc_silent tr Act.joinReader rfl]
          exact h1
        · intro hne
          simp only [events_snoc_silent tr Act.joinReader rfl]
          exact h2 hne
        · simp only [events_snoc_silent tr Act.joinReader rfl]
          simpa [oClosePub] using h3
        · simp only [filter_snoc]
          rw [h4]
          rfl
        · simp [pathOk]
        · intro _
          rfl
        · simp only [events_snoc_silent tr Act.joinReader rfl]
          exact h7
        · intro hp
          exact absurd hp (by simp)
        · intro hp
          exact absurd hp (by simp)
      · simp [oStep, hr] at hs

/-- Every enabled scheduled step preserves the invariant. -/
theorem step_inv {l : L} {s s' : St} (hs : step l s = some s')
    (h : SysInv s.rpc s.opc s.path s.tr) : SysInv s'.rpc s'.opc s'.path s'.tr := by
  obtain ⟨obs, rpc, rscript, wpc, wscript, opc, termReq, wcl, scl, path, tr⟩ := s
  cases l with
  | rstep => exact rStep_inv hs h
  | wstep => exact wStep_inv hs h
  | ostep => exact oStep_inv hs h
  | selA => exact selStep_inv hs h
  | selB => exact selStep_inv hs h
  | reqTerm => exact reqStep_inv hs h

/-- The invariant holds along every schedule. -/
theorem runSched_inv {ls : List L} {s s' : St} (hs : runSched ls s = some s')
    (h : SysInv s.rpc s.opc s.path s.tr) : SysInv s'.rpc s'.opc s'.path s'.tr := by
  induction ls generalizing s with
  | nil =>
      simp only [runSched, Option.some.injEq] at hs
      subst hs
      exact h
  | cons l rest ih =>
      simp only [runSched] at hs
      cases hl : step l s with
      | none => rw [hl] at hs; exact absurd hs (by simp)
      | some s2 =>
          rw [hl] at hs
          exact ih hs (step_inv hl h)

/-- The invariant holds in the initial state. -/
theorem sysInv_init (obs : Bool) (rs : List ReadResult) (ws : List OutItem) :
    SysInv (initSt obs rs ws).rpc (initSt obs rs ws).opc
      (initSt obs rs ws).path (initSt obs rs ws).tr := by
  refine ⟨?_, ?_, ?_, ?_, ?_, ?_, ?_, ?_, ?_⟩ <;>
    simp [initSt, events, oTrace, pathOk, beforeOpenOk, oClosePub]

/-- The invariant holds in every state reachable from the initial state. -/
theorem reachable_inv {obs : Bool} {rs : List ReadResult} {ws : List OutItem}
    {ls : List L} {s : St} (hs : runSched ls (initSt obs rs ws) = some s) :
    SysInv s.rpc s.opc s.path s.tr :=
  runSched_inv hs (sysInv_init obs rs ws)

theorem count_closeStream_filter (tr : List Act) :
    tr.count Act.closeStream = (tr.filter isOrchAct).count Act.closeStream :=
  (List.count_filter (by rfl)).symm

/-- A complete run through the self-detected-closure path: the reader
publishes `Open`, reads one frame, hits end of stream; the orchestrator
takes the `<-readerDone` branch; the termination acknowledgment arrives;
the writer drains one message and exits. -/
def schedA : List L :=
  [.rstep, .rstep, .rstep, .rstep, .selA, .ostep, .ostep, .reqTerm,
   .ostep, .ostep, .wstep, .wstep, .ostep, .ostep]

def rsA : List ReadResult := [.ok 7, .fatal]

def wsA : List OutItem := [.msg 3]

/-- Final state of the `schedA` execution. -/
def stA : St := (runSched schedA (initSt false rsA wsA)).getD (initSt false rsA wsA)

/-- A complete run through the externally-requested path in which the
termination request arrives before the reader goroutine has been scheduled
at all: the orchestrator publishes `ChannelClose` before the reader
publishes `ChannelOpen`. -/
def schedB : List L :=
  [.reqTerm, .selB, .ostep, .rstep, .ostep, .wstep, .ostep, .ostep, .rstep, .ostep]

/-- Final state of the `schedB` execution. -/
def stB : St := (runSched schedB (initSt false [] [])).getD (initSt false [] [])

/-- Claim C1 exactly as stated: for every channel run, under any
interleaving (termination request at any time), the published event
sequence matches `Open (Frame | ParseError)* Close`. -/
def eventPatternClaim : Prop :=
  ∀ (obs : Bool) (rs : List ReadResult) (ws : List OutItem) (ls : List L) (s : St),
    runSched ls (initSt obs rs ws) = some s → s.opc = OPc.odone →
    goodPattern (events s.tr) = true

/-- C1 (counterexample): the claimed pattern fails on the code.  In the
concrete schedule `schedB` the termination request arrives before the
reader goroutine runs, the orchestrator's `ChannelClose` send wins the race
on `eventsOut` against the reader's `ChannelOpen` send, and the consumer
observes `[ChannelClose, ChannelOpen]`. -/
theorem c1_counterexample : ¬ eventPatternClaim := by
  intro h
  have hb : runSched schedB (initSt false [] []) = some stB := by decide
  have hg := h false [] [] schedB stB hb (by decide)
  exact absurd hg (by decide)

/-- C1 (amended): in every complete run, `ChannelOpen` and `ChannelClose`
are each published exactly once and no `Frame`/`ParseError` precedes
`ChannelOpen`; when the run shuts down through the self-detected path
(`<-readerDone` branch), the full pattern `Open (Frame | ParseError)* Close`
holds.  Under an externally requested termination the pattern can be
violated (`c1_counterexample`). -/
theorem c1_amended (obs : Bool) (rs : List ReadResult) (ws : List OutItem)
    (ls : List L) (s : St)
    (hrun : runSched ls (initSt obs rs ws) = some s) (hdone : s.opc = OPc.odone) :
    (events s.tr).count Ev.channelOpen = 1 ∧
    (events s.tr).count Ev.channelClose = 1 ∧
    beforeOpenOk (events s.tr) = true ∧
    (s.path = some true → goodPattern (events s.tr) = true) := by
  obtain ⟨h1, h2, h3, h4, h5, h6, h7, h8, h9⟩ := reachable_inv hrun
  have hrd := h6 hdone
  refine ⟨?_, ?_, h7, ?_⟩
  · simpa [hrd] using h1
  · simpa [hdone, oClosePub] using h3
  · intro hp
    simpa [hdone, oClosePub] using (h9 hp).2

/-- Witness for `c1_amended` on the concrete complete run `schedA`. -/
theorem c1_amended_witness :
    (events stA.tr).count Ev.channelOpen = 1 ∧
    (events stA.tr).count Ev.channelClose = 1 ∧
    beforeOpenOk (events stA.tr) = true ∧
    (stA.path = some true → goodPattern (events stA.tr) = true) :=
  c1_amended false rsA wsA schedA stA (by decide) (by decide)

/-- C2: in every complete run exactly one of the two shutdown branches has
executed — the orchestrator's action sequence is exactly the
`<-readerDone`-branch sequence or exactly the `<-ch.terminate`-branch
sequence — and `ch.rwc.Close()` appears exactly once in the whole trace,
after `ChannelClose` was published. -/
theorem c2_close_once (obs : Bool) (rs : List ReadResult) (ws : List OutItem)
    (ls : List L) (s : St)
    (hrun : runSched ls (initSt obs rs ws) = some s) (hdone : s.opc = OPc.odone) :
    ((s.tr.filter isOrchAct = aSeq ∧ s.path = some true) ∨
     (s.tr.filter isOrchAct = bSeq ∧ s.path = some false)) ∧
    s.tr.count Act.closeStream = 1 := by
  obtain ⟨h1, h2, h3, h4, h5, h6, h7, h8, h9⟩ := reachable_inv hrun
  rw [hdone] at h4 h5
  simp only [pathOk] at h5
  have hp : s.path = some true ∨ s.path = some false := by
    cases hpath : s.path with
    | none => exact absurd hpath h5
    | some b =>
        cases b with
        | false => exact Or.inr rfl
        | true => exact Or.inl rfl
  constructor
  · rcases hp with hp | hp
    · rw [hp] at h4
      exact Or.inl ⟨h4, hp⟩
    · rw [hp] at h4
      exact Or.inr ⟨h4, hp⟩
  · rw [count_closeStream_filter]
    rcases hp with hp | hp <;> rw [hp] at h4 <;> rw [h4] <;> decide

/-- Witness for `c2_close_once` on the concrete complete run `schedA`. -/
theorem c2_close_once_witness :
    ((stA.tr.filter isOrchAct = aSeq ∧ stA.path = some true) ∨
     (stA.tr.filter isOrchAct = bSeq ∧ stA.path = some false)) ∧
    stA.tr.count Act.closeStream = 1 :=
  c2_close_once false rsA wsA schedA stA (by decide) (by decide)

/-- C3: in every complete run that shut down through the self-detected
path, the orchestrator performed, in order: publish `ChannelClose`; send on
the channel-closed report queue; receive the termination signal; close the
outbound queue; join the writer; close the raw stream. -/
theorem c3_patha_order (obs : Bool) (rs : List ReadResult) (ws : List OutItem)
    (ls : List L) (s : St)
    (hrun : runSched ls (initSt obs rs ws) = some s) (hdone : s.opc = OPc.odone)
    (hp : s.path = some true) :
    s.tr.filter isOrchAct =
      [Act.ev Ev.channelClose, Act.reportClose, Act.recvTerminate,
       Act.closeWritec, Act.joinWriter, Act.closeStream] := by
  have h4 := (reachable_inv hrun).orchTr
  rw [hdone, hp] at h4
  exact h4

/-- Witness for `c3_patha_order` on the concrete complete run `schedA`. -/
theorem c3_patha_order_witness :
    stA.tr.filter isOrchAct =
      [Act.ev Ev.channelClose, Act.reportClose, Act.recvTerminate,
       Act.closeWritec, Act.joinWriter, Act.closeStream] :=
  c3_patha_order false rsA wsA schedA stA (by decide) (by decide) (by decide)

/-- C4: in every complete run that shut down through the externally
requested path, the orchestrator performed, in order: publish
`ChannelClose`; close the outbound queue; join the writer; close the raw
stream; join the reader. -/
theorem c4_pathb_order (obs : Bool) (rs : List ReadResult) (ws : List OutItem)
    (ls : List L) (s : St)
    (hrun : runSched ls (initSt obs rs ws) = some s) (hdone : s.opc = OPc.odone)
    (hp : s.path = some false) :
    s.tr.filter isOrchAct =
      [Act.ev Ev.channelClose, Act.closeWritec, Act.joinWriter,
       Act.closeStream, Act.joinReader] := by
  have h4 := (reachable_inv hrun).orchTr
  rw [hdone, hp] at h4
  exact h4

/-- Witness for `c4_pathb_order` on the concrete complete run `schedB`. -/
theorem c4_pathb_order_witness :
    stB.tr.filter isOrchAct =
      [Act.ev Ev.channelClose, Act.closeWritec, Act.joinWriter,
       Act.closeStream, Act.joinReader] :=
  c4_pathb_order false [] [] schedB stB (by decide) (by decide) (by decide)

/-- C5: a fatal read failure (any error that is not a `*ParserError`) stops
the reader loop immediately and silently: no action is performed for the
failure itself and nothing follows it. -/
theorem c5_fatal_silent (obs : Bool) (rest : List ReadResult) :
    readerLoop obs (ReadResult.fatal :: rest) = [] := rfl

/-- C6: a recoverable `*ParserError` read result publishes an
`EventParseError` carrying that error and the loop continues with the
remaining reads; it never terminates the loop. -/
theorem c6_parse_error_continue (obs : Bool) (e : Nat) (rest : List ReadResult) :
    readerLoop obs (ReadResult.perr e :: rest) =
      Act.ev (Ev.parseError e) :: readerLoop obs rest := rfl

/-- C7: for a successfully decoded frame, when the observer
(`nodeStreamRequest`) is configured it is invoked synchronously strictly
before the `EventFrame` publication; when it is not configured the event is
published directly. -/
theorem c7_observer_before_publish (f : Nat) (rest : List ReadResult) :
    readerLoop true (ReadResult.ok f :: rest) =
      Act.obsCall f :: Act.ev (Ev.frame f) :: readerLoop true rest ∧
    readerLoop false (ReadResult.ok f :: rest) =
      Act.ev (Ev.frame f) :: readerLoop false rest :=
  ⟨rfl, rfl⟩

/-- C9: write failures are silently dropped by the writer loop: the result
never influences the loop (any two outcome lists give the same behaviour),
no event is published, no error is propagated, and every `Message`/`Frame`
item still reaches its codec write call. -/
theorem c9_write_failure_dropped (res res2 : List WRes) (items : List OutItem) :
    writerLoop res items = writerLoop res2 items ∧
    (writerLoop res items).published = [] ∧
    (writerLoop res items).propagated = none ∧
    (writerLoop res items).calls.length = (items.filter isWrite).length := by
  induction items generalizing res res2 with
  | nil => exact ⟨rfl, rfl, rfl, rfl⟩
  | cons i rest ih =>
      cases i with
      | msg m =>
          obtain ⟨e1, e2, e3, e4⟩ := ih res.tail res2.tail
          refine ⟨?_, ?_, ?_, ?_⟩
          · simp [writerLoop, e1]
          · simpa [writerLoop] using e2
          · simpa [writerLoop] using e3
          · simpa [writerLoop, isWrite, List.filter_cons] using e4
      | frm f =>
          obtain ⟨e1, e2, e3, e4⟩ := ih res.tail res2.tail
          refine ⟨?_, ?_, ?_, ?_⟩
          · simp [writerLoop, e1]
          · simpa [writerLoop] using e2
          · simpa [writerLoop] using e3
          · simpa [writerLoop, isWrite, List.filter_cons] using e4
      | other =>
          simpa [writerLoop, isWrite, List.filter_cons] using ih res res2

/-- C10: an outbound item that is neither a `Message` nor a `Frame` is
consumed with no codec write, no event and no error: the writer behaves on
`other :: items` exactly as on `items`. -/
theorem c10_unknown_item_skipped (res : List WRes) (items : List OutItem) :
    writerLoop res (OutItem.other :: items) = writerLoop res items := rfl

/-- C8: `newChannel` performs no stream operation and starts no goroutine;
it succeeds exactly when `NewParser` succeeds on the configuration it
builds (propagating the same error otherwise); on success the channel holds
the given endpoint, label and stream; and the configuration carries the
fresh random signature link id. -/
theorem c8_construction (mk : ParserConf → Except Nat Nat) (conf : NodeConf)
    (e label rwc rb : Nat) :
    (newChannel mk conf e label rwc rb).1 = [] ∧
    exceptOk (newChannel mk conf e label rwc rb).2 =
      mkOk (mk (chanParserConf conf rwc rb)) ∧
    (newChannel mk conf e label rwc rb).2.map (fun ch => (ch.endpoint, ch.label, ch.rwc)) =
      (mk (chanParserConf conf rwc rb)).map (fun _ => (e, label, rwc)) ∧
    (chanParserConf conf rwc rb).outSignatureLinkId = rb := by
  refine ⟨?_, ?_, ?_, rfl⟩ <;>
    cases hm : mk (chanParserConf conf rwc rb) <;>
      simp [newChannel, hm, exceptOk, mkOk, Except.map]
